import Mathlib

/-!
Verification development for the house-points hybrid app
(src/hogwarts_hauspunkte_react_app.jsx).

The file shallowly embeds the parts of the source relevant to the
replication/reconciliation core: the state reducer (applyDelta, onAdd,
resetAll), the durable local store (readLocal, writeLocal), room binding
(sanitizeRoom), and the reconciliation engine (initial load effect,
realtime-subscription merge, debounced upsert effect).

Modelling conventions:
- JS strings are Lean String, JS numbers used as integers are Int/Nat;
  a JS number that may be NaN is Option Int with none for NaN.
- A JS object used as a string-keyed map is an association list
  List (String x Option Int) in insertion order, so that unvalidated
  data with missing or extra keys is representable.
- ISO timestamps compared through new Date(..) are modelled as Nat
  (milliseconds); the null-initialized lastRemoteRef is Option Nat.
- Nondeterministic reads (Date.now(), crypto.randomUUID()) are passed
  as explicit parameters.
-/

namespace Hogwarts

/-- The four fixed house labels (source constant HOUSES, line 35). -/
def HOUSES : List String := ["Gryffindor", "Slytherin", "Ravenclaw", "Hufflepuff"]

/-- Maximum retained history length (source constant MAX_HISTORY, line 62). -/
def MAX_HISTORY : Nat := 200

/-- A JS object holding house scores: ordered key/value pairs.  A value of
none models a non-finite number (NaN), which arises in JS when an absent
key is read as undefined and added to. -/
abbrev PointsObj := List (String × Option Int)

/-- Object.keys in insertion order. -/
def objKeys (p : PointsObj) : List String := p.map Prod.fst

/-- Property read p[k]: some v when the key is present, none when the
read yields undefined. -/
def objGet (p : PointsObj) (k : String) : Option (Option Int) :=
  match p.find? (fun kv => kv.1 == k) with
  | some kv => some kv.2
  | none => none

/-- Spread update (the object literal with spread and one computed key in
applyDelta, line 228): overwrites the key in place when present, else
appends it. -/
def objSet (p : PointsObj) (k : String) (v : Option Int) : PointsObj :=
  if (p.find? (fun kv => kv.1 == k)).isSome then
    p.map (fun kv => if kv.1 == k then (k, v) else kv)
  else p ++ [(k, v)]

/-- JS addition prev.points[target] + delta: a present finite value adds,
a present NaN or an absent key (undefined + delta) gives NaN. -/
def jsAdd (x : Option (Option Int)) (d : Int) : Option Int :=
  match x with
  | some (some v) => some (v + d)
  | _ => none

/-- The default points object with all four houses at zero
(lines 106, 114, 240). -/
def defaultPoints : PointsObj :=
  [("Gryffindor", some 0), ("Slytherin", some 0), ("Ravenclaw", some 0), ("Hufflepuff", some 0)]

/-- One ledger entry (source type HistoryEntry, lines 40 to 46). -/
structure HistoryEntry where
  id : String
  house : String
  delta : Int
  reason : Option String
  timestamp : Nat
deriving DecidableEq, Repr

/-- The replicated and persisted aggregate (source type AppState,
lines 50 to 57). -/
structure AppState where
  points : PointsObj
  history : List HistoryEntry
  theme : String
  bgUrl : String
  room : String
  backend : String
deriving DecidableEq, Repr

/-- String.prototype.trim, dropping whitespace at both ends. -/
def jsTrim (s : String) : String :=
  String.mk (((s.data.dropWhile Char.isWhitespace).reverse.dropWhile Char.isWhitespace).reverse)

/-- The reason normalisation in applyDelta, line 229:
(why or empty).trim() or undefined. -/
def normReason (why : Option String) : Option String :=
  let t := jsTrim (why.getD "")
  if t = "" then none else some t

/-- The HistoryEntry literal built in applyDelta, line 229. -/
def mkEntry (target : String) (delta : Int) (why : Option String)
    (newId : String) (now : Nat) : HistoryEntry :=
  { id := newId, house := target, delta := delta, reason := normReason why, timestamp := now }

/-- The reducer applyDelta, lines 226 to 233: updates one key via spread,
prepends one entry and truncates history to MAX_HISTORY.  The generated
uuid and Date.now() are the parameters newId and now. -/
def applyDelta (prev : AppState) (target : String) (delta : Int) (why : Option String)
    (newId : String) (now : Nat) : AppState :=
  { prev with
      points := objSet prev.points target (jsAdd (objGet prev.points target) delta),
      history := (mkEntry target delta why newId now :: prev.history).take MAX_HISTORY }

/-- The amount coercion in onAdd, line 235: Number.isFinite(amount) gives
Math.floor(Math.abs(amount)) (natAbs on an integer-valued amount), and 0
for NaN (amount = none). -/
def coerceAmt (amount : Option Int) : Nat :=
  match amount with
  | some a => a.natAbs
  | none => 0

/-- onAdd, lines 234 to 237: returns without mutating when the coerced
amount is zero, else dispatches applyDelta with the signed amount. -/
def onAdd (prev : AppState) (house : String) (amount : Option Int) (reason : String)
    (sign : Int) (newId : String) (now : Nat) : AppState :=
  let amt := coerceAmt amount
  if amt = 0 then prev
  else applyDelta prev house (sign * (amt : Int)) (some reason) newId now

/-- The state update of resetAll, line 240 (after the confirm dialog). -/
def resetAll (prev : AppState) : AppState :=
  { prev with points := defaultPoints, history := [] }

/-- Membership in the character class [a-z0-9_-] kept by the replace on
line 80. -/
def allowedChar (c : Char) : Bool :=
  decide (97 ≤ c.toNat ∧ c.toNat ≤ 122) || decide (48 ≤ c.toNat ∧ c.toNat ≤ 57)
    || c == '_' || c == '-'

/-- toLowerCase on one character: maps an ASCII capital down, leaves all
other characters unchanged. -/
def jsToLower (c : Char) : Char :=
  if 65 ≤ c.toNat ∧ c.toNat ≤ 90 then Char.ofNat (c.toNat + 32) else c

/-- sanitizeRoom, line 80: lower-case, strip characters outside
[a-z0-9_-], slice to 64, and fall back to "demo" when the result is the
empty string. -/
def sanitizeRoom (s : String) : String :=
  let t := ((s.data.map jsToLower).filter allowedChar).take 64
  if t.isEmpty then "demo" else String.mk t

/-- The JS or-else on strings: the left operand unless it is falsy
(empty). -/
def jsOr (a b : String) : String := if a = "" then b else a

/-- The shape of a successfully parsed localStorage record as consumed by
readLocal, lines 105 to 111.  Each field is none when the stored record
lacks it (or, for history, when it is not an array; for bgUrl, when it is
not a string), which is exactly when the corresponding fallback on those
lines fires. -/
structure StoredData where
  points : Option PointsObj
  history : Option (List HistoryEntry)
  theme : Option String
  bgUrl : Option String
  room : Option String
  backend : Option String
deriving DecidableEq, Repr

/-- The backend default on lines 111 and 114: supabase when the client is
configured, else local. -/
def defaultBackend (supabaseReady : Bool) : String :=
  if supabaseReady then "supabase" else "local"

/-- readLocal, lines 101 to 116.  The input none stands for every path
into the catch block: a missing record, unparseable JSON, or any thrown
error.  urlRoom is the value of getRoomFromURL() (empty when absent) and
supabaseReady the module-level flag. -/
def readLocal (raw : Option StoredData) (urlRoom : String) (supabaseReady : Bool) : AppState :=
  match raw with
  | some d =>
      { points := d.points.getD defaultPoints,
        history := (d.history.getD []).take MAX_HISTORY,
        theme := if d.theme = some "light" then "light" else "dark",
        bgUrl := d.bgUrl.getD "",
        room := sanitizeRoom (jsOr (jsOr (d.room.getD "") urlRoom) "demo"),
        backend := jsOr (d.backend.getD "") (defaultBackend supabaseReady) }
  | none =>
      { points := defaultPoints, history := [], theme := "dark", bgUrl := "",
        room := sanitizeRoom (jsOr urlRoom "demo"),
        backend := defaultBackend supabaseReady }

/-- writeLocal, lines 118 to 127: the snapshot actually serialized and
persisted, with history truncated before serialization. -/
def writeLocal (state : AppState) : AppState :=
  { points := state.points, history := state.history.take MAX_HISTORY,
    theme := state.theme, bgUrl := state.bgUrl, room := state.room,
    backend := state.backend }

/-- A remote games row as delivered by the fetch on lines 172 to 179 or
by the subscription payload on lines 191 to 196. -/
structure RemoteSnapshot where
  points : PointsObj
  history : List HistoryEntry
  updated_at : Nat
deriving DecidableEq, Repr

/-- The guard on line 193: an unset cursor (null lastRemoteRef) passes
unconditionally, otherwise the incoming date must be strictly greater. -/
def cursorLt (cursor : Option Nat) (t1 : Nat) : Bool :=
  match cursor with
  | none => true
  | some t0 => decide (t0 < t1)

/-- The realtime-subscription merge, lines 192 to 196: when the guard
passes, points/history are replaced wholesale (history truncated) and the
cursor advances to the incoming timestamp; otherwise state and cursor are
left untouched.  Returns the new app state and the new cursor. -/
def inboundMerge (prev : AppState) (cursor : Option Nat) (r : RemoteSnapshot) :
    AppState × Option Nat :=
  if cursorLt cursor r.updated_at then
    ({ prev with points := r.points, history := r.history.take MAX_HISTORY },
      some r.updated_at)
  else (prev, cursor)

/-- The initial load effect, lines 167 to 184: a successful fetch (some r)
adopts the remote points/history (history truncated) and sets the cursor;
a missing row or an error leaves both unchanged. -/
def initialLoad (prev : AppState) (cursor : Option Nat) (fetch : Option RemoteSnapshot) :
    AppState × Option Nat :=
  match fetch with
  | some r =>
      ({ prev with points := r.points, history := r.history.take MAX_HISTORY },
        some r.updated_at)
  | none => (prev, cursor)

/-- The row sent by the upsert on lines 207 to 209. -/
structure PushPayload where
  id : String
  points : PointsObj
  history : List HistoryEntry
  updated_at : Nat
deriving DecidableEq, Repr

/-- The observable steps of one firing of the debounced upsert callback,
lines 205 to 211, in program order. -/
inductive PushEvent where
  | send (p : PushPayload)
  | confirmed
  | cursorSet (t : Nat)
deriving DecidableEq, Repr

/-- The body of the debounced upsert timeout, lines 205 to 211, as the
ordered event trace it produces: the upsert is dispatched with a
timestamp from one Date call (tStamp); after the await resolves
(confirmed) the cursor is assigned from a second, separate Date call
(tConfirm, taken on line 210). -/
def pushFire (room : String) (points : PointsObj) (history : List HistoryEntry)
    (tStamp tConfirm : Nat) : List PushEvent :=
  [PushEvent.send { id := room, points := points, history := history, updated_at := tStamp },
   PushEvent.confirmed,
   PushEvent.cursorSet tConfirm]

/-- The payload of the first send event of a trace, when any. -/
def sentPayload : List PushEvent → Option PushPayload
  | [] => none
  | PushEvent.send p :: _ => some p
  | _ :: rest => sentPayload rest

/-- The cursor value after the whole trace ran: the last cursorSet value,
when any. -/
def cursorValueAfter (evs : List PushEvent) : Option Nat :=
  evs.foldl (fun acc e => match e with | PushEvent.cursorSet t => some t | _ => acc) none

/-- Whether some cursor assignment happens strictly before the first
write confirmation in the trace. -/
def cursorSetBeforeConfirmed : List PushEvent → Bool
  | [] => false
  | PushEvent.cursorSet _ :: _ => true
  | PushEvent.confirmed :: _ => false
  | PushEvent.send _ :: rest => cursorSetBeforeConfirmed rest

/-- The pair of fields the debounced upsert effect watches
(its dependency array holds points and history, line 214). -/
structure Snap where
  points : PointsObj
  history : List HistoryEntry
deriving DecidableEq, Repr

/-- The reconciliation engine state: the watched snapshot, the cursor
(lastRemoteRef), the fire time of the pending debounce timer when one is
armed, and the pushes performed so far (oldest first). -/
structure EngineState where
  snap : Snap
  cursor : Option Nat
  pendingAt : Option Nat
  pushes : List PushPayload
deriving DecidableEq, Repr

/-- The three kinds of snapshot-changing events delivered by the
single-threaded event queue: a local mutation (applyDelta or resetAll
rendering a new snapshot), an inbound subscription payload, and a
successful initial fetch. -/
inductive EngineEv where
  | localMut (s : Snap)
  | inboundEv (r : RemoteSnapshot)
  | fetchedEv (r : RemoteSnapshot)
deriving DecidableEq, Repr

/-- The debounce interval of the upsert effect (line 212). -/
def DEBOUNCE_MS : Nat := 400

/-- Fire the pending debounced push if its timer is due at time t: the
callback sends the watched snapshot stamped at the fire time and then
sets the cursor (the confirmation-time stamp is modelled as the fire
time, that is, an instantaneous round trip). -/
def firePending (room : String) (st : EngineState) (t : Nat) : EngineState :=
  match st.pendingAt with
  | some ft =>
      if ft ≤ t then
        { st with
            pendingAt := none
            pushes := st.pushes ++
              [{ id := room, points := st.snap.points, history := st.snap.history,
                 updated_at := ft }]
            cursor := some ft }
      else st
  | none => st

/-- The guard of the upsert effect, line 204: the supabase backend is
effective and the room is non-empty (falsy test on the room string). -/
def syncOn (active : Bool) (room : String) : Bool := active && (room != "")

/-- Re-running the upsert effect after its dependencies changed: the
cleanup of the previous run clears any pending timer, and the new run
arms a fresh 400-unit timer when the guard passes (lines 203 to 214). -/
def reschedule (active : Bool) (room : String) (t : Nat) (st : EngineState) : EngineState :=
  if syncOn active room then { st with pendingAt := some (t + DEBOUNCE_MS) }
  else { st with pendingAt := none }

/-- One step of the engine at time t.  A due timer fires first.  A local
mutation installs the new snapshot and reschedules.  An inbound payload
is merged under the cursorLt guard; only an applied merge changes the
watched dependencies and hence reschedules (a discarded one leaves the
pending timer ticking).  A successful fetch adopts the remote snapshot,
sets the cursor and reschedules. -/
def engineStep (active : Bool) (room : String) (st : EngineState) (ev : Nat × EngineEv) :
    EngineState :=
  let t := ev.1
  let st1 := firePending room st t
  match ev.2 with
  | EngineEv.localMut s => reschedule active room t { st1 with snap := s }
  | EngineEv.inboundEv r =>
      if cursorLt st1.cursor r.updated_at then
        reschedule active room t
          { st1 with
              snap := { points := r.points, history := r.history.take MAX_HISTORY }
              cursor := some r.updated_at }
      else st1
  | EngineEv.fetchedEv r =>
      reschedule active room t
        { st1 with
            snap := { points := r.points, history := r.history.take MAX_HISTORY }
            cursor := some r.updated_at }

/-- Run the engine over a chronological event list. -/
def engineRun (active : Bool) (room : String) (st : EngineState)
    (evs : List (Nat × EngineEv)) : EngineState :=
  evs.foldl (engineStep active room) st

/-- Let time pass with no further event: an armed timer eventually fires. -/
def engineFlush (room : String) (st : EngineState) : EngineState :=
  match st.pendingAt with
  | some ft =>
      { st with
          pendingAt := none
          pushes := st.pushes ++
            [{ id := room, points := st.snap.points, history := st.snap.history,
               updated_at := ft }]
          cursor := some ft }
  | none => st

/-- The default app state produced by readLocal with nothing stored and
no room in the page address. -/
def defaultAppState : AppState :=
  { points := defaultPoints, history := [], theme := "dark", bgUrl := "",
    room := "demo", backend := "local" }

/-- A sample remote row used as a concrete input. -/
def rEx : RemoteSnapshot :=
  { points := [("Gryffindor", some 3), ("Slytherin", some 0), ("Ravenclaw", some 0),
      ("Hufflepuff", some 0)],
    history := [], updated_at := 7 }

/-- A parsed stored record with every field absent. -/
def emptyStored : StoredData :=
  { points := none, history := none, theme := none, bgUrl := none, room := none,
    backend := none }

/-- A parsed stored record whose points object has only one house key. -/
def badStored : StoredData :=
  { points := some [("Gryffindor", some 1)], history := some [], theme := none,
    bgUrl := none, room := none, backend := none }

/-- A sample watched snapshot. -/
def snapA : Snap :=
  { points := [("Gryffindor", some 5), ("Slytherin", some 0), ("Ravenclaw", some 0),
      ("Hufflepuff", some 0)], history := [] }

/-- Another sample watched snapshot. -/
def snapB : Snap :=
  { points := [("Gryffindor", some 7), ("Slytherin", some 0), ("Ravenclaw", some 0),
      ("Hufflepuff", some 0)], history := [] }

/-- A sample engine state with a set cursor and no pending timer. -/
def engSt0 : EngineState :=
  { snap := { points := defaultPoints, history := [] }, cursor := some 5,
    pendingAt := none, pushes := [] }

/-! ## Theorems -/

/-- C1: inbound merge is strict last-writer-wins.  With the cursor set to
T0, an incoming snapshot timestamped T1 replaces the in-memory
points/history and advances the cursor iff T1 > T0; when T1 <= T0 both
the local state and the cursor are unchanged. -/
theorem C1_inbound_strict_lww (prev : AppState) (t0 : Nat) (r : RemoteSnapshot) :
    (t0 < r.updated_at →
      inboundMerge prev (some t0) r =
        ({ prev with points := r.points, history := r.history.take MAX_HISTORY },
          some r.updated_at)) ∧
    (r.updated_at ≤ t0 → inboundMerge prev (some t0) r = (prev, some t0)) := by
  constructor
  · intro h
    simp [inboundMerge, cursorLt, h]
  · intro h
    have hn : ¬ t0 < r.updated_at := by omega
    simp [inboundMerge, cursorLt, hn]

/-- Witness for C1 at concrete inputs: cursor 5 applies the snapshot
stamped 7, cursor 9 discards it. -/
theorem C1_witness :
    inboundMerge defaultAppState (some 5) rEx =
      ({ defaultAppState with
           points := rEx.points
           history := rEx.history.take MAX_HISTORY }, some 7) ∧
    inboundMerge defaultAppState (some 9) rEx = (defaultAppState, some 9) :=
  ⟨(C1_inbound_strict_lww defaultAppState 5 rEx).1 (by decide),
   (C1_inbound_strict_lww defaultAppState 9 rEx).2 (by decide)⟩

/-- C10: with the cursor unset (null lastRemoteRef), the inbound merge
applies any incoming snapshot unconditionally, replacing points/history
and setting the cursor to the incoming timestamp, however old it is. -/
theorem C10_unset_cursor_applies_any (prev : AppState) (r : RemoteSnapshot) :
    inboundMerge prev none r =
      ({ prev with points := r.points, history := r.history.take MAX_HISTORY },
        some r.updated_at) := rfl

/-- C2 counterexample: in the push trace the cursor is not assigned
before the write confirmation, and the value it is assigned is the
second timestamp, not the stamped one carried by the upsert. -/
theorem C2_counterexample :
    cursorSetBeforeConfirmed (pushFire "demo" defaultPoints [] 10 11) = false ∧
    cursorValueAfter (pushFire "demo" defaultPoints [] 10 11) = some 11 ∧
    (sentPayload (pushFire "demo" defaultPoints [] 10 11)).map
      PushPayload.updated_at = some 10 ∧
    cursorValueAfter (pushFire "demo" defaultPoints [] 10 11) ≠
      (sentPayload (pushFire "demo" defaultPoints [] 10 11)).map
        PushPayload.updated_at := by
  decide

/-- C2 amended: the push carries the full current points/history plus a
freshly stamped timestamp, but the cursor is assigned only after the
write is confirmed, and from a second fresh Date call taken at
confirmation time rather than the stamped value. -/
theorem C2_push_stamp_and_cursor (room : String) (pts : PointsObj)
    (hist : List HistoryEntry) (tStamp tConfirm : Nat) :
    sentPayload (pushFire room pts hist tStamp tConfirm) =
      some { id := room, points := pts, history := hist, updated_at := tStamp } ∧
    cursorSetBeforeConfirmed (pushFire room pts hist tStamp tConfirm) = false ∧
    cursorValueAfter (pushFire room pts hist tStamp tConfirm) = some tConfirm :=
  ⟨rfl, rfl, rfl⟩

/-- C4: after every mutating operation the history has length at most
200, and the retained entries are an initial segment (a take) of the
untruncated newest-first sequence, so truncation drops the oldest
entries and preserves the order of the rest. -/
theorem C4_history_bounded :
    (∀ (prev : AppState) (target : String) (delta : Int) (why : Option String)
        (newId : String) (now : Nat),
      (applyDelta prev target delta why newId now).history =
        (mkEntry target delta why newId now :: prev.history).take MAX_HISTORY ∧
      (applyDelta prev target delta why newId now).history.length ≤ MAX_HISTORY) ∧
    (∀ prev : AppState, (resetAll prev).history = []) ∧
    (∀ (prev : AppState) (cursor : Option Nat) (r : RemoteSnapshot),
      cursorLt cursor r.updated_at = true →
        (inboundMerge prev cursor r).1.history = r.history.take MAX_HISTORY ∧
        (inboundMerge prev cursor r).1.history.length ≤ MAX_HISTORY) ∧
    (∀ (prev : AppState) (cursor : Option Nat) (r : RemoteSnapshot),
      (initialLoad prev cursor (some r)).1.history = r.history.take MAX_HISTORY ∧
      (initialLoad prev cursor (some r)).1.history.length ≤ MAX_HISTORY) ∧
    (∀ s : AppState, (writeLocal s).history = s.history.take MAX_HISTORY ∧
      (writeLocal s).history.length ≤ MAX_HISTORY) ∧
    (∀ (d : StoredData) (u : String) (sr : Bool),
      (readLocal (some d) u sr).history = (d.history.getD []).take MAX_HISTORY ∧
      (readLocal (some d) u sr).history.length ≤ MAX_HISTORY) ∧
    (∀ (u : String) (sr : Bool), (readLocal none u sr).history = []) := by
  refine ⟨fun prev target delta why newId now => ⟨rfl, ?_⟩,
    fun prev => rfl,
    fun prev cursor r h => ?_,
    fun prev cursor r => ⟨rfl, ?_⟩,
    fun s => ⟨rfl, ?_⟩,
    fun d u sr => ⟨rfl, ?_⟩,
    fun u sr => rfl⟩
  · exact List.length_take_le _ _
  · constructor
    · simp [inboundMerge, h]
    · simp [inboundMerge, h]
  · exact List.length_take_le _ _
  · exact List.length_take_le _ _
  · exact List.length_take_le _ _

/-- Witness for C4 on the hypothesis-bearing conjunct: an applied
inbound merge at concrete inputs truncates as claimed. -/
theorem C4_witness :
    (inboundMerge defaultAppState (some 5) rEx).1.history =
      rEx.history.take MAX_HISTORY ∧
    (inboundMerge defaultAppState (some 5) rEx).1.history.length ≤ MAX_HISTORY :=
  C4_history_bounded.2.2.1 defaultAppState (some 5) rEx (by decide)

/-- C8: load never fails in the embedding (readLocal is a total
function); missing or corrupt data and a record with every field absent
both yield the default snapshot with the four houses at zero and an
empty history, and every load result respects the history bound. -/
theorem C8_readLocal_total_default :
    (∀ (u : String) (sr : Bool),
      (readLocal none u sr).points = defaultPoints ∧
      (readLocal none u sr).history = []) ∧
    (∀ (u : String) (sr : Bool),
      readLocal (some emptyStored) u sr = readLocal none u sr) ∧
    (∀ (raw : Option StoredData) (u : String) (sr : Bool),
      (readLocal raw u sr).history.length ≤ MAX_HISTORY) := by
  refine ⟨fun u sr => ⟨rfl, rfl⟩, fun u sr => ?_, fun raw u sr => ?_⟩
  · simp [readLocal, emptyStored, jsOr]
  · cases raw with
    | none => simp [readLocal, MAX_HISTORY]
    | some d =>
        simp [readLocal]

/-- Spread-updating a key that is already present leaves the key list of
the object unchanged. -/
theorem objKeys_objSet_of_mem (p : PointsObj) (k : String) (v : Option Int)
    (h : k ∈ objKeys p) : objKeys (objSet p k v) = objKeys p := by
  have hfind : (p.find? (fun kv => kv.1 == k)).isSome := by
    rw [List.find?_isSome]
    have h2 : k ∈ p.map Prod.fst := h
    rcases List.mem_map.mp h2 with ⟨kv, hkv, hfst⟩
    exact ⟨kv, hkv, by simp [hfst]⟩
  simp only [objSet, hfind, if_true]
  simp only [objKeys, List.map_map]
  apply List.map_congr_left
  intro kv _
  by_cases hk : kv.1 = k
  · simp [Function.comp, hk]
  · simp [Function.comp, hk]

/-- C5 counterexample: a persisted record whose points object holds only
one house key is adopted unvalidated by readLocal, so the resulting state
does not have the four fixed keys. -/
theorem C5_counterexample :
    objKeys (readLocal (some badStored) "" true).points ≠ HOUSES := by decide

/-- C5 amended: the exactly-four-keys shape is established by the
default points object, preserved by resetAll and by applyDelta on a
house target, and produced by readLocal whenever the stored record has
no points field; but readLocal adopts a stored points object
unvalidated (and the remote adoption paths likewise), so the invariant
does not hold for every reachable state. -/
theorem C5_points_keys_amended :
    objKeys defaultPoints = HOUSES ∧
    (∀ prev : AppState, objKeys (resetAll prev).points = HOUSES) ∧
    (∀ (prev : AppState) (target : String) (delta : Int) (why : Option String)
        (newId : String) (now : Nat),
      objKeys prev.points = HOUSES → target ∈ HOUSES →
      objKeys (applyDelta prev target delta why newId now).points = HOUSES) ∧
    (∀ (u : String) (sr : Bool), objKeys (readLocal none u sr).points = HOUSES) ∧
    (∀ (d : StoredData) (u : String) (sr : Bool), d.points = none →
      objKeys (readLocal (some d) u sr).points = HOUSES) := by
  refine ⟨rfl, fun prev => rfl, fun prev target delta why newId now h ht => ?_,
    fun u sr => rfl, fun d u sr h => ?_⟩
  · have hmem : target ∈ objKeys prev.points := by rw [h]; exact ht
    show objKeys (objSet prev.points target _) = HOUSES
    rw [objKeys_objSet_of_mem _ _ _ hmem, h]
  · simp [readLocal, h]
    rfl

/-- Witness for C5 amended at concrete inputs. -/
theorem C5_witness :
    objKeys (applyDelta defaultAppState "Ravenclaw" 5 none "id2" 3).points = HOUSES ∧
    objKeys (readLocal (some emptyStored) "" false).points = HOUSES :=
  ⟨C5_points_keys_amended.2.2.1 defaultAppState "Ravenclaw" 5 none "id2" 3
      (by decide) (by decide),
   C5_points_keys_amended.2.2.2.2 emptyStored "" false (by decide)⟩

/-- C6 counterexample: applyDelta itself has no zero guard; called with
delta 0 it appends a HistoryEntry and so does not return its input
unchanged. -/
theorem C6_counterexample :
    (applyDelta defaultAppState "Gryffindor" 0 none "id0" 0).history.length = 1 ∧
    applyDelta defaultAppState "Gryffindor" 0 none "id0" 0 ≠ defaultAppState := by
  decide

/-- C6 amended: the coercion and the zero guard live in onAdd, not in
applyDelta.  onAdd coerces the amount to an integer magnitude (zero for
a non-finite amount) and returns the state unchanged when the magnitude
is zero; otherwise it dispatches applyDelta with the signed, provably
non-zero amount.  applyDelta applies whatever delta it is handed,
including zero. -/
theorem C6_zero_guard_onAdd (prev : AppState) (house : String) (amount : Option Int)
    (reason : String) (sign : Int) (newId : String) (now : Nat) :
    (coerceAmt amount = 0 → onAdd prev house amount reason sign newId now = prev) ∧
    (coerceAmt amount ≠ 0 →
      onAdd prev house amount reason sign newId now =
        applyDelta prev house (sign * (coerceAmt amount : Int)) (some reason) newId now) ∧
    ((sign = 1 ∨ sign = -1) → coerceAmt amount ≠ 0 →
      sign * (coerceAmt amount : Int) ≠ 0) := by
  refine ⟨fun h => by simp [onAdd, h], fun h => by simp [onAdd, h], fun hs h => ?_⟩
  have hz : (coerceAmt amount : Int) ≠ 0 := Int.natCast_ne_zero.mpr h
  rcases hs with rfl | rfl
  · simpa using hz
  · simpa using hz

/-- Witness for C6 amended at concrete inputs: a zero amount is a no-op
at onAdd, a non-zero amount dispatches applyDelta with the signed
magnitude. -/
theorem C6_witness :
    onAdd defaultAppState "Gryffindor" (some 0) "" 1 "id0" 0 = defaultAppState ∧
    onAdd defaultAppState "Gryffindor" (some (-3)) "" 1 "id1" 2 =
      applyDelta defaultAppState "Gryffindor" 3 (some "") "id1" 2 ∧
    (1 : Int) * ((coerceAmt (some (-3)) : Nat) : Int) ≠ 0 :=
  ⟨(C6_zero_guard_onAdd defaultAppState "Gryffindor" (some 0) "" 1 "id0" 0).1
      (by decide),
   (C6_zero_guard_onAdd defaultAppState "Gryffindor" (some (-3)) "" 1 "id1" 2).2.1
      (by decide),
   (C6_zero_guard_onAdd defaultAppState "Gryffindor" (some (-3)) "" 1 "id1" 2).2.2
      (Or.inl rfl) (by decide)⟩

/-- A character kept by the room filter is not an ASCII capital, so the
lower-casing pass fixes it. -/
theorem jsToLower_allowed {c : Char} (h : allowedChar c = true) : jsToLower c = c := by
  unfold jsToLower
  rw [if_neg]
  rintro ⟨h1, h2⟩
  simp only [allowedChar, Bool.or_eq_true, decide_eq_true_eq, beq_iff_eq] at h
  have hn : (97 ≤ c.toNat ∧ c.toNat ≤ 122) ∨ (48 ≤ c.toNat ∧ c.toNat ≤ 57) ∨
      c.toNat = 95 ∨ c.toNat = 45 := by
    rcases h with ((hg | hg) | hg) | hg
    · exact Or.inl hg
    · exact Or.inr (Or.inl hg)
    · exact Or.inr (Or.inr (Or.inl (by rw [hg]; decide)))
    · exact Or.inr (Or.inr (Or.inr (by rw [hg]; decide)))
  omega

/-- A list of allowed characters of length at most 64 is a fixed point
of the lower-case, filter, take pipeline of sanitizeRoom. -/
theorem sanitize_pipeline_fixed (l : List Char) (hall : ∀ c ∈ l, allowedChar c = true)
    (hl : l.length ≤ 64) :
    ((l.map jsToLower).filter allowedChar).take 64 = l := by
  rw [List.map_congr_left (fun c hc => jsToLower_allowed (hall c hc)), List.map_id',
    List.filter_eq_self.mpr hall, List.take_of_length_le hl]

/-- C7: sanitizeRoom is a total function that lower-cases, strips
characters outside the allowed class, truncates to 64 and falls back to
the fixed default on an empty result; it is idempotent, its result is
never empty, always within the length bound, and made of allowed
characters only. -/
theorem C7_sanitizeRoom_idempotent (s : String) :
    sanitizeRoom (sanitizeRoom s) = sanitizeRoom s ∧
    (sanitizeRoom s).length ≤ 64 ∧
    sanitizeRoom s ≠ "" ∧
    (∀ c ∈ (sanitizeRoom s).data, allowedChar c = true) ∧
    ((s.data.map jsToLower).filter allowedChar = [] → sanitizeRoom s = "demo") := by
  have hchars : ∀ c ∈ ((s.data.map jsToLower).filter allowedChar).take 64,
      allowedChar c = true :=
    fun c hc => List.of_mem_filter (List.mem_of_mem_take hc)
  have hlen : (((s.data.map jsToLower).filter allowedChar).take 64).length ≤ 64 :=
    List.length_take_le _ _
  by_cases he : ((s.data.map jsToLower).filter allowedChar).take 64 = []
  · have hs : sanitizeRoom s = "demo" := by simp [sanitizeRoom, he]
    refine ⟨?_, ?_, ?_, ?_, fun _ => hs⟩
    · rw [hs]; decide
    · rw [hs]; decide
    · rw [hs]; decide
    · rw [hs]; decide
  · have hs : sanitizeRoom s =
        String.mk (((s.data.map jsToLower).filter allowedChar).take 64) := by
      simp [sanitizeRoom, he]
    refine ⟨?_, ?_, ?_, ?_, fun hnil => ?_⟩
    · rw [hs]
      show sanitizeRoom (String.mk _) = String.mk _
      unfold sanitizeRoom
      simp only [sanitize_pipeline_fixed _ hchars hlen]
      rw [if_neg (by simpa [List.isEmpty_iff] using he)]
    · rw [hs]
      exact hlen
    · rw [hs]
      intro hcon
      exact he (by simpa using congrArg String.data hcon)
    · rw [hs]
      exact hchars
    · exact absurd (by rw [hnil]; rfl) he

/-- Witness for C7 at concrete inputs: idempotence on the sample string
from the source assertions, allowed characters of a concrete result, and
the default fallback on a string of disallowed characters only. -/
theorem C7_witness :
    sanitizeRoom (sanitizeRoom "  KLasse7A !!!  ") = sanitizeRoom "  KLasse7A !!!  " ∧
    sanitizeRoom "!!!" = "demo" :=
  ⟨(C7_sanitizeRoom_idempotent "  KLasse7A !!!  ").1,
   (C7_sanitizeRoom_idempotent "!!!").2.2.2.2 (by decide)⟩

/-- Re-running the upsert effect with the guard passing arms a fresh
timer and changes nothing else. -/
theorem reschedule_on (room : String) (hroom : room ≠ "") (t : Nat) (st : EngineState) :
    reschedule true room t st = { st with pendingAt := some (t + DEBOUNCE_MS) } := by
  unfold reschedule syncOn
  simp [hroom]

/-- Flushing a state whose timer is armed at ft appends exactly one push
carrying the watched snapshot stamped at ft. -/
theorem engineFlush_pushes (room : String) (st : EngineState) (ft : Nat)
    (h : st.pendingAt = some ft) :
    (engineFlush room st).pushes = st.pushes ++
      [{ id := room, points := st.snap.points, history := st.snap.history,
         updated_at := ft }] := by
  unfold engineFlush
  rw [h]

/-- A burst of local mutations each arriving before the pending timer
fires: every step cancels and rearms the timer, installs the newest
snapshot and performs no push. -/
theorem engineRun_localMut_chain (room : String) (hroom : room ≠ "")
    (evs : List (Nat × Snap)) :
    ∀ (t0 : Nat) (s0 : Snap) (c : Option Nat) (P : List PushPayload),
    List.Chain (fun a b => b.1 < a.1 + DEBOUNCE_MS) (t0, s0) evs →
    engineRun true room
        { snap := s0, cursor := c, pendingAt := some (t0 + DEBOUNCE_MS), pushes := P }
        (evs.map (fun p => (p.1, EngineEv.localMut p.2)))
      = { snap := (evs.getLastD (t0, s0)).2, cursor := c,
          pendingAt := some ((evs.getLastD (t0, s0)).1 + DEBOUNCE_MS), pushes := P } := by
  induction evs with
  | nil => intro t0 s0 c P _; rfl
  | cons hd tl ih =>
      intro t0 s0 c P hchain
      cases hchain with
      | cons hgap htl =>
          have hstep : engineStep true room
              { snap := s0, cursor := c, pendingAt := some (t0 + DEBOUNCE_MS), pushes := P }
              (hd.1, EngineEv.localMut hd.2)
            = { snap := hd.2, cursor := c, pendingAt := some (hd.1 + DEBOUNCE_MS),
                pushes := P } := by
            unfold engineStep firePending
            have h1 : ¬ (t0 + DEBOUNCE_MS ≤ hd.1) := by
              have := hgap
              omega
            simp only [h1, if_false]
            rw [reschedule_on room hroom]
          simp only [List.map_cons, engineRun, List.foldl_cons] at *
          rw [hstep]
          have := ih hd.1 hd.2 c P (by simpa using htl)
          simp only [engineRun] at this
          rw [this, List.getLastD_cons]

/-- C3: debounce coalescing.  Starting with no pending push, a burst of
one or more local mutations in which every successor arrives within the
400-unit window of its predecessor produces exactly one outbound push,
fired one window after the last mutation and carrying the snapshot of
the last mutation. -/
theorem C3_debounce_coalescing (room : String) (s0 : Snap) (c : Option Nat)
    (t1 : Nat) (s1 : Snap) (rest : List (Nat × Snap))
    (hroom : room ≠ "")
    (hchain : List.Chain (fun a b => b.1 < a.1 + DEBOUNCE_MS) (t1, s1) rest) :
    (engineFlush room
        (engineRun true room
          { snap := s0, cursor := c, pendingAt := none, pushes := [] }
          (((t1, s1) :: rest).map (fun p => (p.1, EngineEv.localMut p.2))))).pushes
      = [{ id := room, points := (rest.getLastD (t1, s1)).2.points,
           history := (rest.getLastD (t1, s1)).2.history,
           updated_at := (rest.getLastD (t1, s1)).1 + DEBOUNCE_MS }] := by
  have hstep0 : engineStep true room
      { snap := s0, cursor := c, pendingAt := none, pushes := [] }
      (t1, EngineEv.localMut s1)
    = { snap := s1, cursor := c, pendingAt := some (t1 + DEBOUNCE_MS), pushes := [] } := by
    unfold engineStep firePending
    simp only []
    rw [reschedule_on room hroom]
  have hrun := engineRun_localMut_chain room hroom rest t1 s1 c [] hchain
  simp only [List.map_cons, engineRun, List.foldl_cons] at *
  rw [hstep0, hrun]
  rw [engineFlush_pushes room _ ((rest.getLastD (t1, s1)).1 + DEBOUNCE_MS) rfl]
  simp

/-- Witness for C3: two mutations 100 units apart coalesce into one push
at 500 carrying the second snapshot. -/
theorem C3_witness :
    (engineFlush "demo"
        (engineRun true "demo"
          { snap := { points := defaultPoints, history := [] }, cursor := none,
            pendingAt := none, pushes := [] }
          [(0, EngineEv.localMut snapA), (100, EngineEv.localMut snapB)])).pushes
      = [{ id := "demo", points := snapB.points, history := snapB.history,
           updated_at := 500 }] :=
  C3_debounce_coalescing "demo" { points := defaultPoints, history := [] } none 0 snapA
    [(100, snapB)] (by decide) (List.chain_cons.mpr ⟨by decide, List.Chain.nil⟩)

/-- C9: while the backend is active and a room is set, every
points/history change reschedules the debounced push: an applied
inbound merge, a successful initial fetch, and a local mutation each
arm the timer one window ahead, and letting it fire emits one push that
echoes exactly the snapshot just installed (for remote-originated
changes, the merged-in remote snapshot itself). -/
theorem C9_push_after_remote_change (room : String) (st : EngineState) (t : Nat)
    (r : RemoteSnapshot) (s : Snap) (hroom : room ≠ "") :
    (cursorLt (firePending room st t).cursor r.updated_at = true →
      ((engineStep true room st (t, EngineEv.inboundEv r)).pendingAt =
          some (t + DEBOUNCE_MS) ∧
        (engineFlush room (engineStep true room st (t, EngineEv.inboundEv r))).pushes =
          (engineStep true room st (t, EngineEv.inboundEv r)).pushes ++
            [{ id := room, points := r.points, history := r.history.take MAX_HISTORY,
               updated_at := t + DEBOUNCE_MS }])) ∧
    ((engineStep true room st (t, EngineEv.fetchedEv r)).pendingAt =
        some (t + DEBOUNCE_MS) ∧
      (engineFlush room (engineStep true room st (t, EngineEv.fetchedEv r))).pushes =
        (engineStep true room st (t, EngineEv.fetchedEv r)).pushes ++
          [{ id := room, points := r.points, history := r.history.take MAX_HISTORY,
             updated_at := t + DEBOUNCE_MS }]) ∧
    ((engineStep true room st (t, EngineEv.localMut s)).pendingAt =
        some (t + DEBOUNCE_MS) ∧
      (engineFlush room (engineStep true room st (t, EngineEv.localMut s))).pushes =
        (engineStep true room st (t, EngineEv.localMut s)).pushes ++
          [{ id := room, points := s.points, history := s.history,
             updated_at := t + DEBOUNCE_MS }]) := by
  have hin : ∀ h : cursorLt (firePending room st t).cursor r.updated_at = true,
      engineStep true room st (t, EngineEv.inboundEv r)
        = { firePending room st t with
              snap := { points := r.points, history := r.history.take MAX_HISTORY }
              cursor := some r.updated_at
              pendingAt := some (t + DEBOUNCE_MS) } := by
    intro h
    unfold engineStep
    simp only [h, if_true]
    rw [reschedule_on room hroom]
  have hfe : engineStep true room st (t, EngineEv.fetchedEv r)
      = { firePending room st t with
            snap := { points := r.points, history := r.history.take MAX_HISTORY }
            cursor := some r.updated_at
            pendingAt := some (t + DEBOUNCE_MS) } := by
    unfold engineStep
    simp only []
    rw [reschedule_on room hroom]
  have hlo : engineStep true room st (t, EngineEv.localMut s)
      = { firePending room st t with
            snap := s
            pendingAt := some (t + DEBOUNCE_MS) } := by
    unfold engineStep
    simp only []
    rw [reschedule_on room hroom]
  refine ⟨fun h => ?_, ?_, ?_⟩
  · rw [hin h]
    exact ⟨rfl, engineFlush_pushes room _ _ rfl⟩
  · rw [hfe]
    exact ⟨rfl, engineFlush_pushes room _ _ rfl⟩
  · rw [hlo]
    exact ⟨rfl, engineFlush_pushes room _ _ rfl⟩

/-- Witness for C9: with cursor 5 and no pending timer, an inbound
snapshot stamped 7 arriving at time 50 arms the timer for 450 and its
flush echoes the merged snapshot back. -/
theorem C9_witness :
    (engineStep true "demo" engSt0 (50, EngineEv.inboundEv rEx)).pendingAt =
      some (50 + DEBOUNCE_MS) ∧
    (engineFlush "demo" (engineStep true "demo" engSt0 (50, EngineEv.inboundEv rEx))).pushes =
      (engineStep true "demo" engSt0 (50, EngineEv.inboundEv rEx)).pushes ++
        [{ id := "demo", points := rEx.points, history := rEx.history.take MAX_HISTORY,
           updated_at := 50 + DEBOUNCE_MS }] :=
  (C9_push_after_remote_change "demo" engSt0 50 rEx { points := [], history := [] }
      (by decide)).1 (by decide)

end Hogwarts
